import Mathlib

/-!
# Verification of the mouse-con event translator

Shallow embedding of `src/main.rs`: a program that translates keyboard and
mouse events into the state of an emulated (uinput) gamepad.

Modelling conventions:
* `f64` arithmetic is modelled exactly over `ℚ`.  The only irrational step,
  `x.signum() * x.abs().sqrt()` followed by the truncating saturating
  `as i32` cast, is modelled in fused form: for `q ≥ 0` the truncation of
  `√q` equals `Nat.sqrt ⌊q⌋` (proved below as `sqrt_trunc_eq_floor_sqrt`),
  and the cast saturates at the `i32` bounds.
* Fallible externals (spawning the `xbanish` helper) take their outcome as
  an explicit argument; process ids for spawned helpers are drawn from a
  counter threaded through the event-loop state.
* Side effects on the uinput device and on helper processes are recorded as
  an explicit list of `Action`s.
-/

namespace MouseCon

/-- `uinput::event::absolute::Position` (the four absolute axes used). -/
inductive Position
  | X | Y | RX | RY
  deriving DecidableEq

/-- `uinput::event::controller::GamePad` variants used by the program. -/
inductive GamePad
  | A | B | X | Y | Start | Select | TL | TR | TL2 | TR2 | ThumbL | ThumbR
  deriving DecidableEq

/-- `uinput::event::controller::DPad` variants used by the program. -/
inductive DPad
  | Up | Down | Left | Right
  deriving DecidableEq

/-- `uinput::event::Controller` as used: a gamepad button or a D-pad
direction. -/
inductive Controller
  | gamePad (g : GamePad)
  | dPad (d : DPad)
  deriving DecidableEq

/-- A `uinput::Event` as sent by the program: a digital controller element
or an absolute axis. -/
inductive UEvent
  | controller (c : Controller)
  | absolute (p : Position)
  deriving DecidableEq

/-- The `winit::keyboard::KeyCode` values the program distinguishes.
`other` stands for every key code not matched by any explicit arm of the
source matches; all such keys are handled identically by the wildcard
arms, so one representative constructor is faithful. -/
inductive KeyCode
  | KeyC | Space | ShiftLeft | KeyM | KeyN | KeyQ | KeyE | KeyX | KeyG
  | ControlLeft | KeyI | KeyJ | KeyK | KeyL | KeyV | KeyR | KeyT | KeyF
  | KeyW | KeyA | KeyS | KeyD | Delete | Backslash | other
  deriving DecidableEq

/-- `fn key_to_controller_event(key: KeyCode) -> Option<Controller>`. -/
def key_to_controller_event (key : KeyCode) : Option Controller :=
  match key with
  | .KeyC => some (.gamePad .B)
  | .Space => some (.gamePad .Y)
  | .ShiftLeft => some (.gamePad .A)
  | .KeyM => some (.gamePad .Start)
  | .KeyN => some (.gamePad .Select)
  | .KeyQ => some (.gamePad .TL)
  | .KeyE => some (.gamePad .TR)
  | .KeyX => some (.gamePad .ThumbL)
  | .KeyG => some (.gamePad .ThumbR)
  | .ControlLeft => some (.gamePad .TL2)
  | .KeyI => some (.dPad .Up)
  | .KeyJ => some (.dPad .Left)
  | .KeyK => some (.dPad .Down)
  | .KeyL => some (.dPad .Right)
  | .KeyV => some (.dPad .Up)
  | .KeyR => some (.dPad .Left)
  | .KeyT => some (.dPad .Down)
  | .KeyF => some (.dPad .Right)
  | _ => none

/-- `fn mouse_button_to_controller_event(button: u32) -> Option<Controller>`. -/
def mouse_button_to_controller_event (button : ℕ) : Option Controller :=
  match button with
  | 1 => some (.gamePad .X)
  | 3 => some (.gamePad .TR2)
  | _ => none

/-- `fn key_to_position(key: KeyCode) -> Option<(Position, i32)>`. -/
def key_to_position (key : KeyCode) : Option (Position × ℤ) :=
  match key with
  | .KeyW => some (.Y, -127)
  | .KeyA => some (.X, -127)
  | .KeyS => some (.Y, 128)
  | .KeyD => some (.X, 128)
  | _ => none

/-- `const MOUSE_SENSITIVITY: f64 = 250.;` -/
def MOUSE_SENSITIVITY : ℚ := 250

/-- `fn map_range(x, in_min, in_max, out_min, out_max) -> f64`, modelled
exactly over `ℚ`. -/
def map_range (x in_min in_max out_min out_max : ℚ) : ℚ :=
  (x - in_min) * (out_max - out_min) / (in_max - in_min) + out_min

/-- Saturation of the Rust `as i32` cast: values are clamped to
`[-2^31, 2^31 - 1]` (`i32::MIN`, `i32::MAX`). -/
def i32sat (z : ℤ) : ℤ := max (-(2 ^ 31)) (min (2 ^ 31 - 1) z)

/-- Truncation toward zero of `√q` for `q ≥ 0`: for nonnegative reals,
`⌊√q⌋ = Nat.sqrt ⌊q⌋` (validated by `sqrt_trunc_eq_floor_sqrt` below). -/
def sqrt_trunc (q : ℚ) : ℤ := (Nat.sqrt ⌊q⌋.toNat : ℤ)

/-- `x.signum() * x.abs().sqrt()` truncated toward zero: the sign is
preserved and the magnitude is the truncated square root of `|x|`. -/
def signum_sqrt (q : ℚ) : ℤ := if q < 0 then -sqrt_trunc (-q) else sqrt_trunc q

/-- `(x.signum() * x.abs().sqrt()) as i32`: truncation toward zero,
saturated at the `i32` bounds. -/
def signum_sqrt_as_i32 (q : ℚ) : ℤ := i32sat (signum_sqrt q)

/-- The value written to axis `RX` by `do_mouse_move` for horizontal delta
`d`, with the sensitivity as a parameter (the source fixes it to
`MOUSE_SENSITIVITY`):
`map_range(delta.0, -range, range, -127., 128.)` then the sign-preserving
square root and the `as i32` cast, where `range = 10. / sensitivity`. -/
def shaped_x (sens d : ℚ) : ℤ :=
  signum_sqrt_as_i32 (map_range d (-(10 / sens)) (10 / sens) (-127) 128)

/-- The value written to axis `RY` by `do_mouse_move` for vertical delta
`d`: as `shaped_x` but the remapped value is additionally multiplied by
`1.5` before the square-root step. -/
def shaped_y (sens d : ℚ) : ℤ :=
  signum_sqrt_as_i32 (map_range d (-(10 / sens)) (10 / sens) (-127) 128 * (3 / 2))

/-- Observable effects of the program: uinput device writes and
synchronizations, and helper-process spawns/kills/waits.  `spawn none`
records a spawn attempt that failed (`Command::spawn` returned `Err`). -/
inductive Action
  | write (e : UEvent) (value : ℤ)
  | sync
  | spawn (result : Option ℕ)
  | kill (pid : ℕ)
  | wait (pid : ℕ)
  deriving DecidableEq

/-- `struct AppState` (the `device` handle itself carries no model state;
`xbanish_proc` tracks the helper process id, if any). -/
structure AppState where
  xbanish_proc : Option ℕ
  deriving DecidableEq

/-- `AppState::send`: the device write followed unconditionally by the
synchronization.  In the source each of the two calls only logs its error
and execution continues either way, so the emitted call sequence does not
depend on failures. -/
def send (e : UEvent) (value : ℤ) : List Action := [.write e value, .sync]

/-- `AppState::do_key`. -/
def do_key (key : KeyCode) (pressed : Bool) : List Action :=
  match key_to_position key with
  | some (position, value) =>
    send (.absolute position) (if pressed then value else 0)
  | none =>
    match key_to_controller_event key with
    | some uinput_event => send (.controller uinput_event) (if pressed then 1 else 0)
    | none => []

/-- `AppState::do_mouse_button`. -/
def do_mouse_button (button : ℕ) (pressed : Bool) : List Action :=
  match mouse_button_to_controller_event button with
  | some uinput_event => send (.controller uinput_event) (if pressed then 1 else 0)
  | none => []

/-- `AppState::do_mouse_move` with the sensitivity constant as a
parameter. -/
def do_mouse_move_with (sens : ℚ) (delta : ℚ × ℚ) : List Action :=
  send (.absolute .RX) (shaped_x sens delta.1) ++ send (.absolute .RY) (shaped_y sens delta.2)

/-- `AppState::do_mouse_move` (the source reads `MOUSE_SENSITIVITY`). -/
def do_mouse_move (delta : ℚ × ℚ) : List Action :=
  do_mouse_move_with MOUSE_SENSITIVITY delta

/-- `AppState::do_recenter`. -/
def do_recenter (pos1 pos2 : Position) : List Action :=
  send (.absolute pos1) 0 ++ send (.absolute pos2) 0

/-- `AppState::hide_mouse`.  With `hide = true` the source spawns
unconditionally and stores `spawn(...).ok()` (the outcome is the
`spawn_result` argument here); with `hide = false` it `take`s the tracked
child, kills it and waits on it, if present. -/
def hide_mouse (s : AppState) (hide : Bool) (spawn_result : Option ℕ) :
    AppState × List Action :=
  if hide then
    ({ s with xbanish_proc := spawn_result }, [.spawn spawn_result])
  else
    match s.xbanish_proc with
    | some process => ({ s with xbanish_proc := none }, [.kill process, .wait process])
    | none => (s, [])

/-- `i32sat` is the identity inside the `i32` range. -/
theorem i32sat_of_bounds (z : ℤ) (h1 : -(2 ^ 31) ≤ z) (h2 : z ≤ 2 ^ 31 - 1) :
    i32sat z = z := by
  simp only [i32sat]
  omega

/-- Evaluation helper: `signum_sqrt_as_i32` at a nonnegative rational whose
floor and square root are known. -/
theorem signum_sqrt_as_i32_eval (q : ℚ) (n m : ℕ) (hq : 0 ≤ q)
    (hfl : ⌊q⌋ = (n : ℤ)) (hs : Nat.sqrt n = m) (hm : (m : ℤ) ≤ 2 ^ 31 - 1) :
    signum_sqrt_as_i32 q = (m : ℤ) := by
  have hnb : ¬q < 0 := not_lt.mpr hq
  rw [signum_sqrt_as_i32, signum_sqrt, if_neg hnb, sqrt_trunc, hfl]
  rw [Int.toNat_natCast, hs]
  exact i32sat_of_bounds _ (by omega) hm

/-- `winit::event_loop::ControlFlow` as used: `Wait` or a `WaitUntil`
deadline (time in milliseconds). -/
inductive ControlFlow
  | Wait
  | WaitUntil (deadline : ℕ)
  deriving DecidableEq

/-- `winit::event::StartCause`; only `ResumeTimeReached` is acted on. -/
inductive StartCause
  | ResumeTimeReached | WaitCancelled | Poll | Init
  deriving DecidableEq

/-- `struct App { state: Option<AppState> }`. -/
structure App where
  state : Option AppState
  deriving DecidableEq

/-- The event-loop view of the program: the `App`, the control flow
registered with the loop, whether `event_loop.exit()` was called, and a
fresh-id counter for helper processes (model bookkeeping: each spawn
attempt consumes one id, so successfully spawned helpers get distinct
pids). -/
structure LoopState where
  app : App
  control_flow : ControlFlow
  exited : Bool
  next_pid : ℕ
  deriving DecidableEq

/-- `winit::event::DeviceEvent` as dispatched: mouse motion, mouse button,
key (with `physical_key` a `PhysicalKey::Code` or not), or any other
device event (all handled by the wildcard arm). -/
inductive DeviceEvent
  | mouseMotion (dx dy : ℚ)
  | button (button : ℕ) (pressed : Bool)
  | key (physical_key : Option KeyCode) (pressed : Bool)
  | other
  deriving DecidableEq

/-- `ApplicationHandler::resumed`: builds a fresh `AppState` (creation
failure panics in the source and is not modelled), recenters both sticks,
and hides the cursor.  `spawn_ok` is the outcome of the helper spawn. -/
def resumed (ls : LoopState) (spawn_ok : Bool) : LoopState × List Action :=
  let st : AppState := { xbanish_proc := none }
  let acts₁ := do_recenter .X .Y
  let acts₂ := do_recenter .RX .RY
  let spawn_result := if spawn_ok then some ls.next_pid else none
  let (st, acts₃) := hide_mouse st true spawn_result
  ({ ls with app := { state := some st }, next_pid := ls.next_pid + 1 },
    acts₁ ++ acts₂ ++ acts₃)

/-- `ApplicationHandler::new_events`: early return when uninitialized;
on `ResumeTimeReached`, recenter the right stick and set `Wait`. -/
def new_events (ls : LoopState) (cause : StartCause) : LoopState × List Action :=
  match ls.app.state with
  | none => (ls, [])
  | some _ =>
    match cause with
    | .ResumeTimeReached => ({ ls with control_flow := .Wait }, do_recenter .RX .RY)
    | _ => (ls, [])

/-- `ApplicationHandler::device_event`: early return when uninitialized;
otherwise dispatch on the device event as in the source.  `now` is the
wall-clock time (ms) at which the event is handled, used for
`ControlFlow::wait_duration(Duration::from_millis(20))`; `spawn_ok` is the
outcome of a helper spawn, should one be attempted. -/
def device_event (ls : LoopState) (now : ℕ) (ev : DeviceEvent) (spawn_ok : Bool) :
    LoopState × List Action :=
  match ls.app.state with
  | none => (ls, [])
  | some st =>
    match ev with
    | .mouseMotion dx dy =>
      ({ ls with control_flow := .WaitUntil (now + 20) }, do_mouse_move (dx, dy))
    | .button button pressed => (ls, do_mouse_button button pressed)
    | .key (some key) pressed =>
      match key with
      | .Delete =>
        let (st, acts) := hide_mouse st false none
        ({ ls with app := { state := some st }, exited := true }, acts)
      | .Backslash =>
        if pressed then
          let spawn_result := if spawn_ok then some ls.next_pid else none
          let (st, acts) := hide_mouse st st.xbanish_proc.isNone spawn_result
          ({ ls with app := { state := some st }, next_pid := ls.next_pid + 1 }, acts)
        else (ls, [])
      | key => (ls, do_key key pressed)
    | .key none _ => (ls, [])
    | .other => (ls, [])

/-- A raw device event with its arrival time and, where relevant, the
outcome of a helper spawn attempted while handling it. -/
structure TimedEvent where
  time : ℕ
  event : DeviceEvent
  spawn_ok : Bool
  deriving DecidableEq

/-- The event loop wakes with `StartCause::ResumeTimeReached` when a
registered `WaitUntil` deadline elapses with no earlier event; a later
arrival time on the next event means the deadline fires first on the same
serial stream.  (The other `StartCause` values are no-ops in `new_events`
and are elided.)  Nothing fires after `event_loop.exit()`. -/
def fire_if_due (ls : LoopState) (now : ℕ) : LoopState × List Action :=
  if ls.exited then (ls, [])
  else
    match ls.control_flow with
    | .WaitUntil deadline =>
      if deadline ≤ now then new_events ls .ResumeTimeReached else (ls, [])
    | .Wait => (ls, [])

/-- One dispatch round of the serial event loop: fire a due deadline, then
deliver the device event (unless the loop has exited). -/
def runStep (ls : LoopState) (te : TimedEvent) : LoopState × List Action :=
  let (ls₁, acts₁) := fire_if_due ls te.time
  if ls₁.exited then (ls₁, acts₁)
  else
    let (ls₂, acts₂) := device_event ls₁ te.time te.event te.spawn_ok
    (ls₂, acts₁ ++ acts₂)

/-- Deliver a list of timed device events in order. -/
def runAux (ls : LoopState) : List TimedEvent → LoopState × List Action
  | [] => (ls, [])
  | te :: rest =>
    let (ls₁, acts₁) := runStep ls te
    let (ls₂, acts₂) := runAux ls₁ rest
    (ls₂, acts₁ ++ acts₂)

/-- Deliver the events, then let time advance to `end_time` so that a
still-pending deadline can fire. -/
def run (ls : LoopState) (tes : List TimedEvent) (end_time : ℕ) :
    LoopState × List Action :=
  let (ls₁, acts₁) := runAux ls tes
  let (ls₂, acts₂) := fire_if_due ls₁ end_time
  (ls₂, acts₁ ++ acts₂)

/-- Loop state before the readiness signal. -/
def initLoop : LoopState :=
  { app := { state := none }, control_flow := .Wait, exited := false, next_pid := 0 }

/-- A whole session: the single readiness signal (`resumed`), then the
device events, then time advancing to `end_time`. -/
def runFromStart (spawn_ok : Bool) (tes : List TimedEvent) (end_time : ℕ) :
    LoopState × List Action :=
  let (ls₁, acts₁) := resumed initLoop spawn_ok
  let (ls₂, acts₂) := run ls₁ tes end_time
  (ls₂, acts₁ ++ acts₂)

/-- Helper processes alive after an action: a successful spawn starts one,
a kill stops it. -/
def liveStep (live : List ℕ) : Action → List ℕ
  | .spawn (some pid) => pid :: live
  | .kill pid => live.erase pid
  | _ => live

/-- Fold `liveStep` over a list of actions. -/
def applyLive (live : List ℕ) (acts : List Action) : List ℕ := acts.foldl liveStep live

/-- Helper processes alive after a trace of actions. -/
def liveAfter (acts : List Action) : List ℕ := applyLive [] acts

/-- The helper process currently tracked by the session state, as a list. -/
def trackedProcs (ls : LoopState) : List ℕ :=
  match ls.app.state with
  | some st => st.xbanish_proc.toList
  | none => []

/-- Invariant tying the action trace to the loop state: the live helper
processes are exactly the tracked one, and all of them have ids below the
fresh-id counter. -/
def LoopInv (ls : LoopState) (live : List ℕ) : Prop :=
  live = trackedProcs ls ∧ ∀ p ∈ live, p < ls.next_pid

/-- `true` iff every `write` in the list is immediately followed by a
`sync`. -/
def wsOk : List Action → Bool
  | [] => true
  | .write _ _ :: .sync :: rest => wsOk rest
  | .write _ _ :: _ => false
  | _ :: rest => wsOk rest

/-- C3: starting from an armed-free (control flow `Wait`) active session:
(a) a motion event at time `t` followed by no further motion until
`end_time ≥ t + 20` produces the motion writes followed by exactly one
zeroing pair — RX set to 0, then RY set to 0, each synchronized — and
nothing else; (b) if a second motion event arrives at `t2 < t + 20`, no
zeroing call is issued between the two motions and the timer is re-armed
to the later deadline `t2 + 20`. -/
theorem c3_recenter_timer (st : AppState) (pid : ℕ)
    (dx dy dx2 dy2 : ℚ) (t t2 end_time : ℕ) (ok ok2 : Bool)
    (hquiet : t + 20 ≤ end_time) (horder : t ≤ t2) (hearly : t2 < t + 20) :
    (run
        { app := { state := some st }, control_flow := .Wait, exited := false,
          next_pid := pid }
        [{ time := t, event := .mouseMotion dx dy, spawn_ok := ok }] end_time).2 =
      do_mouse_move (dx, dy) ++
        [.write (.absolute .RX) 0, .sync, .write (.absolute .RY) 0, .sync] ∧
    (runAux
        { app := { state := some st }, control_flow := .Wait, exited := false,
          next_pid := pid }
        [{ time := t, event := .mouseMotion dx dy, spawn_ok := ok },
         { time := t2, event := .mouseMotion dx2 dy2, spawn_ok := ok2 }]).2 =
      do_mouse_move (dx, dy) ++ do_mouse_move (dx2, dy2) ∧
    (runAux
        { app := { state := some st }, control_flow := .Wait, exited := false,
          next_pid := pid }
        [{ time := t, event := .mouseMotion dx dy, spawn_ok := ok },
         { time := t2, event := .mouseMotion dx2 dy2, spawn_ok := ok2 }]).1.control_flow =
      .WaitUntil (t2 + 20) := by
  have hnot : ¬(t + 20 ≤ t2) := by omega
  refine ⟨?_, ?_, ?_⟩
  · simp [run, runAux, runStep, fire_if_due, device_event, new_events,
      do_recenter, send, hquiet]
  · simp [runAux, runStep, fire_if_due, device_event, hnot]
  · simp [runAux, runStep, fire_if_due, device_event, hnot]

/-- Witness for C3: concrete session with motion at time 0, a second
motion at time 10, and the quiet deadline checked at time 100. -/
theorem c3_recenter_timer_witness :
    ((0 : ℕ) + 20 ≤ 100 ∧ (0 : ℕ) ≤ 10 ∧ (10 : ℕ) < 0 + 20) ∧
    ((run
        { app := { state := some { xbanish_proc := none } }, control_flow := .Wait,
          exited := false, next_pid := 0 }
        [{ time := 0, event := .mouseMotion 1 2, spawn_ok := true }] 100).2 =
      do_mouse_move (1, 2) ++
        [.write (.absolute .RX) 0, .sync, .write (.absolute .RY) 0, .sync] ∧
    (runAux
        { app := { state := some { xbanish_proc := none } }, control_flow := .Wait,
          exited := false, next_pid := 0 }
        [{ time := 0, event := .mouseMotion 1 2, spawn_ok := true },
         { time := 10, event := .mouseMotion 3 4, spawn_ok := true }]).2 =
      do_mouse_move (1, 2) ++ do_mouse_move (3, 4) ∧
    (runAux
        { app := { state := some { xbanish_proc := none } }, control_flow := .Wait,
          exited := false, next_pid := 0 }
        [{ time := 0, event := .mouseMotion 1 2, spawn_ok := true },
         { time := 10, event := .mouseMotion 3 4, spawn_ok := true }]).1.control_flow =
      .WaitUntil (10 + 20)) :=
  ⟨⟨by norm_num, by norm_num, by norm_num⟩,
    c3_recenter_timer { xbanish_proc := none } 0 1 2 3 4 0 10 100 true true
      (by norm_num) (by norm_num) (by norm_num)⟩

/-- An action list is write-sync clean in a composable sense: prefixing it
to any list preserves the `wsOk` check.  (In particular it contains no
dangling `write`.) -/
def WS (acts : List Action) : Prop := ∀ rest, wsOk (acts ++ rest) = wsOk rest

/-- The empty trace is write-sync clean. -/
theorem ws_nil : WS [] := fun _ => rfl

/-- Concatenation preserves write-sync cleanliness. -/
theorem ws_append {a b : List Action} (ha : WS a) (hb : WS b) : WS (a ++ b) := by
  intro rest
  rw [List.append_assoc, ha (b ++ rest), hb rest]

/-- Every `send` is a write immediately followed by a sync. -/
theorem ws_send (e : UEvent) (v : ℤ) : WS (send e v) := fun _ => rfl

/-- `do_key` traces are write-sync clean. -/
theorem ws_do_key (key : KeyCode) (pressed : Bool) : WS (do_key key pressed) := by
  unfold do_key
  cases key_to_position key with
  | some pv => exact ws_send _ _
  | none =>
    cases key_to_controller_event key with
    | some c => exact ws_send _ _
    | none => exact ws_nil

/-- `do_mouse_button` traces are write-sync clean. -/
theorem ws_do_mouse_button (button : ℕ) (pressed : Bool) :
    WS (do_mouse_button button pressed) := by
  unfold do_mouse_button
  cases mouse_button_to_controller_event button with
  | some c => exact ws_send _ _
  | none => exact ws_nil

/-- `do_mouse_move` traces are write-sync clean. -/
theorem ws_do_mouse_move (delta : ℚ × ℚ) : WS (do_mouse_move delta) :=
  ws_append (ws_send _ _) (ws_send _ _)

/-- `do_recenter` traces are write-sync clean. -/
theorem ws_do_recenter (pos1 pos2 : Position) : WS (do_recenter pos1 pos2) :=
  ws_append (ws_send _ _) (ws_send _ _)

/-- `hide_mouse` traces contain no writes at all. -/
theorem ws_hide_mouse (s : AppState) (hide : Bool) (r : Option ℕ) :
    WS (hide_mouse s hide r).2 := by
  unfold hide_mouse
  cases hide
  · cases s.xbanish_proc with
    | some p => exact fun _ => rfl
    | none => exact ws_nil
  · exact fun _ => rfl

/-- `device_event` traces are write-sync clean. -/
theorem ws_device_event (ls : LoopState) (now : ℕ) (ev : DeviceEvent) (ok : Bool) :
    WS (device_event ls now ev ok).2 := by
  unfold device_event
  cases hs : ls.app.state with
  | none => exact ws_nil
  | some st =>
    dsimp only
    cases ev with
    | mouseMotion dx dy => exact ws_do_mouse_move _
    | button b p => exact ws_do_mouse_button b p
    | other => exact ws_nil
    | key k p =>
      cases k with
      | none => exact ws_nil
      | some kc =>
        cases kc <;> dsimp only
        case Delete => exact ws_hide_mouse _ _ _
        case Backslash =>
          cases p
          · exact ws_nil
          · exact ws_hide_mouse _ _ _
        all_goals exact ws_do_key _ _

/-- `new_events` traces are write-sync clean. -/
theorem ws_new_events (ls : LoopState) (cause : StartCause) :
    WS (new_events ls cause).2 := by
  unfold new_events
  cases ls.app.state with
  | none => exact ws_nil
  | some st =>
    cases cause
    case ResumeTimeReached => exact ws_do_recenter _ _
    all_goals exact ws_nil

/-- `resumed` traces are write-sync clean. -/
theorem ws_resumed (ls : LoopState) (ok : Bool) : WS (resumed ls ok).2 :=
  ws_append (ws_append (ws_do_recenter _ _) (ws_do_recenter _ _)) (fun _ => rfl)

/-- `fire_if_due` traces are write-sync clean. -/
theorem ws_fire_if_due (ls : LoopState) (now : ℕ) : WS (fire_if_due ls now).2 := by
  unfold fire_if_due
  by_cases hex : ls.exited = true
  · rw [if_pos hex]
    exact ws_nil
  · rw [if_neg hex]
    cases ls.control_flow with
    | Wait => exact ws_nil
    | WaitUntil d =>
      dsimp only
      by_cases hd : d ≤ now
      · rw [if_pos hd]
        exact ws_new_events _ _
      · rw [if_neg hd]
        exact ws_nil

/-- `runStep` traces are write-sync clean. -/
theorem ws_runStep (ls : LoopState) (te : TimedEvent) : WS (runStep ls te).2 := by
  unfold runStep
  rcases hf : fire_if_due ls te.time with ⟨ls₁, acts₁⟩
  dsimp only
  have hws₁ : WS acts₁ := by
    have h := ws_fire_if_due ls te.time
    rw [hf] at h
    exact h
  by_cases hex : ls₁.exited = true
  · rw [if_pos hex]
    exact hws₁
  · rw [if_neg hex]
    rcases hd : device_event ls₁ te.time te.event te.spawn_ok with ⟨ls₂, acts₂⟩
    have hws₂ : WS acts₂ := by
      have h := ws_device_event ls₁ te.time te.event te.spawn_ok
      rw [hd] at h
      exact h
    exact ws_append hws₁ hws₂

/-- `runAux` traces are write-sync clean. -/
theorem ws_runAux (tes : List TimedEvent) : ∀ ls, WS (runAux ls tes).2 := by
  induction tes with
  | nil => exact fun ls => ws_nil
  | cons te rest ih =>
    exact fun ls => ws_append (ws_runStep ls te) (ih (runStep ls te).1)

/-- `run` traces are write-sync clean. -/
theorem ws_run (ls : LoopState) (tes : List TimedEvent) (end_time : ℕ) :
    WS (run ls tes end_time).2 :=
  ws_append (ws_runAux tes ls) (ws_fire_if_due _ _)

/-- C8: over any whole session (readiness signal, any stream of device
events, any end time), the emitted action trace passes the write-sync
check: every device write is immediately followed by a synchronization
call before any later action, in particular before any subsequent write.
Failures are not observable in the call sequence: in the source each of
the write and the synchronization only logs its error, and the
synchronization is invoked even when the write failed. -/
theorem c8_write_then_sync (ok : Bool) (tes : List TimedEvent) (end_time : ℕ) :
    wsOk (runFromStart ok tes end_time).2 = true := by
  have h : WS (runFromStart ok tes end_time).2 :=
    ws_append (ws_resumed initLoop ok) (ws_run (resumed initLoop ok).1 tes end_time)
  have h2 := h []
  rwa [List.append_nil] at h2

/-- `applyLive` distributes over concatenation. -/
theorem applyLive_append (live : List ℕ) (a b : List Action) :
    applyLive live (a ++ b) = applyLive (applyLive live a) b :=
  List.foldl_append _ _ _ _

/-- Action lists that neither spawn nor kill a helper process. -/
def PN (acts : List Action) : Prop := ∀ live, applyLive live acts = live

/-- The empty trace is process-neutral. -/
theorem pn_nil : PN [] := fun _ => rfl

/-- Concatenation preserves process-neutrality. -/
theorem pn_append {a b : List Action} (ha : PN a) (hb : PN b) : PN (a ++ b) := by
  intro live
  rw [applyLive_append, ha live, hb live]

/-- `send` is process-neutral. -/
theorem pn_send (e : UEvent) (v : ℤ) : PN (send e v) := fun _ => rfl

/-- `do_key` is process-neutral. -/
theorem pn_do_key (key : KeyCode) (pressed : Bool) : PN (do_key key pressed) := by
  unfold do_key
  cases key_to_position key with
  | some pv => exact pn_send _ _
  | none =>
    cases key_to_controller_event key with
    | some c => exact pn_send _ _
    | none => exact pn_nil

/-- `do_mouse_button` is process-neutral. -/
theorem pn_do_mouse_button (button : ℕ) (pressed : Bool) :
    PN (do_mouse_button button pressed) := by
  unfold do_mouse_button
  cases mouse_button_to_controller_event button with
  | some c => exact pn_send _ _
  | none => exact pn_nil

/-- `do_mouse_move` is process-neutral. -/
theorem pn_do_mouse_move (delta : ℚ × ℚ) : PN (do_mouse_move delta) :=
  pn_append (pn_send _ _) (pn_send _ _)

/-- `do_recenter` is process-neutral. -/
theorem pn_do_recenter (pos1 pos2 : Position) : PN (do_recenter pos1 pos2) :=
  pn_append (pn_send _ _) (pn_send _ _)

/-- `new_events` is process-neutral. -/
theorem pn_new_events (ls : LoopState) (cause : StartCause) :
    PN (new_events ls cause).2 := by
  unfold new_events
  cases ls.app.state with
  | none => exact pn_nil
  | some st =>
    dsimp only
    cases cause
    case ResumeTimeReached => exact pn_do_recenter _ _
    all_goals exact pn_nil

/-- `fire_if_due` is process-neutral. -/
theorem pn_fire_if_due (ls : LoopState) (now : ℕ) : PN (fire_if_due ls now).2 := by
  unfold fire_if_due
  by_cases hex : ls.exited = true
  · rw [if_pos hex]
    exact pn_nil
  · rw [if_neg hex]
    cases ls.control_flow with
    | Wait => exact pn_nil
    | WaitUntil d =>
      dsimp only
      by_cases hd : d ≤ now
      · rw [if_pos hd]
        exact pn_new_events _ _
      · rw [if_neg hd]
        exact pn_nil

/-- `fire_if_due` changes only the control flow of the loop state. -/
theorem fire_if_due_app (ls : LoopState) (now : ℕ) :
    (fire_if_due ls now).1.app = ls.app ∧
    (fire_if_due ls now).1.next_pid = ls.next_pid := by
  unfold fire_if_due new_events
  by_cases hex : ls.exited = true
  · rw [if_pos hex]
    exact ⟨rfl, rfl⟩
  · rw [if_neg hex]
    cases ls.control_flow with
    | Wait => exact ⟨rfl, rfl⟩
    | WaitUntil d =>
      dsimp only
      by_cases hd : d ≤ now
      · rw [if_pos hd]
        cases ls.app.state with
        | none => exact ⟨rfl, rfl⟩
        | some st => exact ⟨rfl, rfl⟩
      · rw [if_neg hd]
        exact ⟨rfl, rfl⟩

/-- The invariant depends only on the `app` and `next_pid` fields. -/
theorem loopInv_of_eq {ls ls2 : LoopState} {live : List ℕ} (h : LoopInv ls live)
    (happ : ls2.app = ls.app) (hpid : ls2.next_pid = ls.next_pid) :
    LoopInv ls2 live := by
  obtain ⟨h1, h2⟩ := h
  have ht : trackedProcs ls2 = trackedProcs ls := by
    unfold trackedProcs
    rw [happ]
  exact ⟨h1.trans ht.symm, hpid ▸ h2⟩

/-- One `device_event` dispatch preserves the invariant. -/
theorem loopInv_device_event (ls : LoopState) (now : ℕ) (ev : DeviceEvent) (ok : Bool)
    (live : List ℕ) (h : LoopInv ls live) :
    LoopInv (device_event ls now ev ok).1
      (applyLive live (device_event ls now ev ok).2) := by
  obtain ⟨hl, hp⟩ := h
  unfold device_event
  cases hs : ls.app.state with
  | none => exact ⟨hl, hp⟩
  | some st =>
    dsimp only
    have hlt : live = st.xbanish_proc.toList := by
      rw [hl]
      simp only [trackedProcs, hs]
    cases ev with
    | mouseMotion dx dy =>
      dsimp only
      refine ⟨?_, hp⟩
      rw [pn_do_mouse_move (dx, dy) live, hlt]
      simp only [trackedProcs, hs]
    | button b p =>
      dsimp only
      refine ⟨?_, ?_⟩
      · rw [pn_do_mouse_button b p live]
        exact hl
      · rw [pn_do_mouse_button b p live]
        exact hp
    | other => exact ⟨hl, hp⟩
    | key k p =>
      cases k with
      | none => exact ⟨hl, hp⟩
      | some kc =>
        cases kc <;> dsimp only
        case Delete =>
          cases hx : st.xbanish_proc with
          | none =>
            refine ⟨?_, ?_⟩
            · simp [hide_mouse, hx, applyLive, liveStep, trackedProcs, hlt]
            · simp [hide_mouse, hx, applyLive, liveStep, hlt]
          | some pk =>
            refine ⟨?_, ?_⟩
            · simp [hide_mouse, hx, applyLive, liveStep, trackedProcs, hlt]
            · simp [hide_mouse, hx, applyLive, liveStep, hlt]
        case Backslash =>
          cases p with
          | false => exact ⟨hl, hp⟩
          | true =>
            cases hx : st.xbanish_proc with
            | none =>
              cases ok with
              | true =>
                refine ⟨?_, ?_⟩
                · simp [hide_mouse, hx, applyLive, liveStep, trackedProcs, hlt]
                · intro q hq
                  simp [hide_mouse, hx, applyLive, liveStep, hlt] at hq ⊢
                  omega
              | false =>
                refine ⟨?_, ?_⟩
                · simp [hide_mouse, hx, applyLive, liveStep, trackedProcs, hlt]
                · intro q hq
                  simp [hide_mouse, hx, applyLive, liveStep, hlt] at hq
            | some pk =>
              refine ⟨?_, ?_⟩
              · simp [hide_mouse, hx, applyLive, liveStep, trackedProcs, hlt]
              · intro q hq
                simp [hide_mouse, hx, applyLive, liveStep, hlt] at hq
        all_goals
          refine ⟨?_, hp⟩
          rw [pn_do_key _ _ live]
          exact hl

/-- One `runStep` preserves the invariant. -/
theorem loopInv_runStep (ls : LoopState) (te : TimedEvent) (live : List ℕ)
    (h : LoopInv ls live) :
    LoopInv (runStep ls te).1 (applyLive live (runStep ls te).2) := by
  unfold runStep
  rcases hf : fire_if_due ls te.time with ⟨ls₁, acts₁⟩
  dsimp only
  have hpn : applyLive live acts₁ = live := by
    have h2 := pn_fire_if_due ls te.time
    rw [hf] at h2
    exact h2 live
  have hInv₁ : LoopInv ls₁ live := by
    have ha := fire_if_due_app ls te.time
    rw [hf] at ha
    exact loopInv_of_eq h ha.1 ha.2
  by_cases hex : ls₁.exited = true
  · rw [if_pos hex]
    dsimp only
    rw [hpn]
    exact hInv₁
  · rw [if_neg hex]
    rcases hd : device_event ls₁ te.time te.event te.spawn_ok with ⟨ls₂, acts₂⟩
    dsimp only
    rw [applyLive_append, hpn]
    have h3 := loopInv_device_event ls₁ te.time te.event te.spawn_ok live hInv₁
    rw [hd] at h3
    exact h3

/-- `runAux` preserves the invariant. -/
theorem loopInv_runAux (tes : List TimedEvent) :
    ∀ ls live, LoopInv ls live →
      LoopInv (runAux ls tes).1 (applyLive live (runAux ls tes).2) := by
  induction tes with
  | nil => exact fun ls live h => h
  | cons te rest ih =>
    intro ls live h
    simp only [runAux]
    rcases h1 : runStep ls te with ⟨ls₁, acts₁⟩
    dsimp only
    rcases h2 : runAux ls₁ rest with ⟨ls₂, acts₂⟩
    dsimp only
    rw [applyLive_append]
    have hstep := loopInv_runStep ls te live h
    rw [h1] at hstep
    have haux := ih ls₁ (applyLive live acts₁) hstep
    rw [h2] at haux
    exact haux

/-- `run` preserves the invariant. -/
theorem loopInv_run (ls : LoopState) (tes : List TimedEvent) (end_time : ℕ)
    (live : List ℕ) (h : LoopInv ls live) :
    LoopInv (run ls tes end_time).1 (applyLive live (run ls tes end_time).2) := by
  unfold run
  rcases h1 : runAux ls tes with ⟨ls₁, acts₁⟩
  dsimp only
  rcases h2 : fire_if_due ls₁ end_time with ⟨ls₂, acts₂⟩
  dsimp only
  rw [applyLive_append]
  have haux := loopInv_runAux tes ls live h
  rw [h1] at haux
  have hpn := pn_fire_if_due ls₁ end_time
  rw [h2] at hpn
  have ha := fire_if_due_app ls₁ end_time
  rw [h2] at ha
  rw [hpn _]
  exact loopInv_of_eq haux ha.1 ha.2

/-- The tracked-helper list has at most one element. -/
theorem trackedProcs_length_le (ls : LoopState) : (trackedProcs ls).length ≤ 1 := by
  unfold trackedProcs
  cases ls.app.state with
  | none => simp
  | some st => cases hx : st.xbanish_proc <;> simp [hx]

/-- C2 (amended): `hide_mouse(true)` itself spawns unconditionally (see
the counterexample), but in any whole session — one readiness signal, then
any stream of device events — `hide_mouse(true)` is only ever reached with
no helper tracked (at resume on a fresh state, and on the toggle key where
the hide flag is computed as `xbanish_proc.is_none()`), so at every point
at most one helper process is alive. -/
theorem c2_single_session_at_most_one_helper (ok : Bool) (tes : List TimedEvent)
    (end_time : ℕ) :
    (liveAfter (runFromStart ok tes end_time).2).length ≤ 1 := by
  have h0 : LoopInv (resumed initLoop ok).1 (applyLive [] (resumed initLoop ok).2) := by
    cases ok with
    | false =>
      refine ⟨rfl, ?_⟩
      intro p hp
      cases hp
    | true =>
      refine ⟨rfl, ?_⟩
      decide
  have hrun := loopInv_run (resumed initLoop ok).1 tes end_time _ h0
  have heq : liveAfter (runFromStart ok tes end_time).2 =
      applyLive (applyLive [] (resumed initLoop ok).2)
        (run (resumed initLoop ok).1 tes end_time).2 :=
    applyLive_append [] (resumed initLoop ok).2
      (run (resumed initLoop ok).1 tes end_time).2
  rw [heq]
  obtain ⟨he, _⟩ := hrun
  rw [he]
  exact trackedProcs_length_le _

/-- Configuration of one absolute axis in the uinput device definition. -/
structure AbsSpec where
  min : ℤ
  max : ℤ
  flat : ℤ
  fuzz : ℤ
  deriving DecidableEq

/-- State of the `uinput` device builder as driven by `AppState::new`.
Absolute axes are stored most recent first; `min`/`max`/`flat`/`fuzz`
configure the most recently declared axis, and each `vendor`/`product`
call overwrites the corresponding id field. -/
structure DeviceBuilder where
  devName : String
  devVendor : ℕ
  devProduct : ℕ
  controllerAll : Bool
  absAxes : List (Position × AbsSpec)
  deriving DecidableEq

/-- `uinput::default()`: a fresh builder. -/
def emptyBuilder : DeviceBuilder :=
  { devName := "", devVendor := 0, devProduct := 0, controllerAll := false, absAxes := [] }

/-- Builder `.name(...)`. -/
def DeviceBuilder.name (b : DeviceBuilder) (s : String) : DeviceBuilder :=
  { b with devName := s }

/-- Builder `.event(Controller::All)`. -/
def DeviceBuilder.eventControllerAll (b : DeviceBuilder) : DeviceBuilder :=
  { b with controllerAll := true }

/-- Builder `.event(Absolute::Position(p))`: declare an absolute axis. -/
def DeviceBuilder.eventAbs (b : DeviceBuilder) (p : Position) : DeviceBuilder :=
  { b with absAxes := (p, { min := 0, max := 0, flat := 0, fuzz := 0 }) :: b.absAxes }

/-- Builder `.min(v)` on the most recently declared axis. -/
def DeviceBuilder.min (b : DeviceBuilder) (v : ℤ) : DeviceBuilder :=
  { b with absAxes :=
    match b.absAxes with
    | (p, s) :: rest => (p, { s with min := v }) :: rest
    | [] => [] }

/-- Builder `.max(v)` on the most recently declared axis. -/
def DeviceBuilder.max (b : DeviceBuilder) (v : ℤ) : DeviceBuilder :=
  { b with absAxes :=
    match b.absAxes with
    | (p, s) :: rest => (p, { s with max := v }) :: rest
    | [] => [] }

/-- Builder `.flat(v)` on the most recently declared axis. -/
def DeviceBuilder.flat (b : DeviceBuilder) (v : ℤ) : DeviceBuilder :=
  { b with absAxes :=
    match b.absAxes with
    | (p, s) :: rest => (p, { s with flat := v }) :: rest
    | [] => [] }

/-- Builder `.fuzz(v)` on the most recently declared axis. -/
def DeviceBuilder.fuzz (b : DeviceBuilder) (v : ℤ) : DeviceBuilder :=
  { b with absAxes :=
    match b.absAxes with
    | (p, s) :: rest => (p, { s with fuzz := v }) :: rest
    | [] => [] }

/-- Builder `.vendor(v)`: sets the vendor id (overwriting any earlier
value). -/
def DeviceBuilder.vendor (b : DeviceBuilder) (v : ℕ) : DeviceBuilder :=
  { b with devVendor := v }

/-- Builder `.product(v)`: sets the product id. -/
def DeviceBuilder.product (b : DeviceBuilder) (v : ℕ) : DeviceBuilder :=
  { b with devProduct := v }

/-- The builder chain of `AppState::new`, call for call. -/
def device_def : DeviceBuilder :=
  emptyBuilder
    |>.name "Microsoft X-Box 360 pad"
    |>.eventControllerAll
    |>.eventAbs .Y |>.min (-127) |>.max 128 |>.flat 0 |>.fuzz 0
    |>.eventAbs .X |>.min (-127) |>.max 128 |>.flat 0 |>.fuzz 0
    |>.eventAbs .RX |>.min (-127) |>.max 128 |>.flat 0 |>.fuzz 0
    |>.eventAbs .RY |>.min (-127) |>.max 128 |>.flat 0 |>.fuzz 0
    |>.vendor 0x045e
    |>.product 0x028e
    |>.vendor 0x110

/-- Validation of the square-root model: for `q ≥ 0`, `sqrt_trunc q` is
exactly the floor (= truncation toward zero) of the real square root of
`q`. -/
theorem sqrt_trunc_eq_floor_sqrt (q : ℚ) (hq : 0 ≤ q) :
    sqrt_trunc q = ⌊Real.sqrt ((q : ℝ))⌋ := by
  have hfl : (0:ℤ) ≤ ⌊q⌋ := Int.floor_nonneg.mpr hq
  have htn : ((⌊q⌋.toNat : ℤ) : ℚ) = (⌊q⌋ : ℚ) := by
    rw [Int.toNat_of_nonneg hfl]
  rw [sqrt_trunc]
  symm
  rw [Int.floor_eq_iff]
  constructor
  · calc ((Nat.sqrt ⌊q⌋.toNat : ℤ) : ℝ) = ((Nat.sqrt ⌊q⌋.toNat : ℕ) : ℝ) := by push_cast; ring
    _ ≤ Real.sqrt ((⌊q⌋.toNat : ℕ) : ℝ) := Real.nat_sqrt_le_real_sqrt
    _ ≤ Real.sqrt (q : ℝ) := by
        apply Real.sqrt_le_sqrt
        have h1 : ((⌊q⌋.toNat : ℤ) : ℚ) ≤ q := by rw [htn]; exact Int.floor_le q
        exact_mod_cast h1
  · have h2 : (q : ℝ) < ((⌊q⌋ : ℚ) : ℝ) + 1 := by
      have := Int.lt_floor_add_one q
      exact_mod_cast this
    have h3 : (⌊q⌋.toNat : ℕ) < (Nat.sqrt ⌊q⌋.toNat + 1) ^ 2 := Nat.lt_succ_sqrt' _
    have h4 : ((⌊q⌋ : ℚ) : ℝ) + 1 ≤ ((Nat.sqrt ⌊q⌋.toNat + 1 : ℕ) ^ 2 : ℝ) := by
      have h5 : ⌊q⌋ + 1 ≤ ((Nat.sqrt ⌊q⌋.toNat + 1) ^ 2 : ℕ) := by omega
      exact_mod_cast h5
    have h6 : (q : ℝ) < ((Nat.sqrt ⌊q⌋.toNat : ℤ) + 1 : ℝ) ^ 2 := by
      push_cast at h2 h4 ⊢
      linarith
    have h7 : (0:ℝ) < ((Nat.sqrt ⌊q⌋.toNat : ℤ) : ℝ) + 1 := by positivity
    calc Real.sqrt (q : ℝ) < ((Nat.sqrt ⌊q⌋.toNat : ℤ) : ℝ) + 1 :=
      (Real.sqrt_lt' h7).mpr h6
    _ = ((Nat.sqrt ⌊q⌋.toNat : ℤ) : ℝ) + 1 := rfl

/-- `i32sat` is monotone. -/
theorem i32sat_mono {z w : ℤ} (h : z ≤ w) : i32sat z ≤ i32sat w := by
  simp only [i32sat]
  omega

/-- `i32sat` preserves nonnegativity. -/
theorem i32sat_nonneg {z : ℤ} (h : 0 ≤ z) : 0 ≤ i32sat z := by
  simp only [i32sat]
  omega

/-- `i32sat` preserves nonpositivity. -/
theorem i32sat_nonpos {z : ℤ} (h : z ≤ 0) : i32sat z ≤ 0 := by
  simp only [i32sat]
  omega

/-- `sqrt_trunc` is nonnegative. -/
theorem sqrt_trunc_nonneg (q : ℚ) : 0 ≤ sqrt_trunc q := Int.natCast_nonneg _

/-- `sqrt_trunc` is monotone. -/
theorem sqrt_trunc_mono {q₁ q₂ : ℚ} (h : q₁ ≤ q₂) : sqrt_trunc q₁ ≤ sqrt_trunc q₂ := by
  unfold sqrt_trunc
  exact_mod_cast Nat.sqrt_le_sqrt (Int.toNat_le_toNat (Int.floor_le_floor h))

/-- `sqrt_trunc q < m` whenever `q < m * m` (for positive `m`). -/
theorem sqrt_trunc_lt {q : ℚ} {m : ℕ} (hm : 0 < m) (h : q < ((m * m : ℕ) : ℚ)) :
    sqrt_trunc q < (m : ℤ) := by
  unfold sqrt_trunc
  rcases le_or_lt 0 ⌊q⌋ with hfl | hfl
  · have h1 : ⌊q⌋ < ((m * m : ℕ) : ℤ) := Int.floor_lt.mpr (by exact_mod_cast h)
    have h2 : ⌊q⌋.toNat < m * m := (Int.toNat_lt hfl).mpr h1
    exact_mod_cast Nat.sqrt_lt.mpr h2
  · have h0 : ⌊q⌋.toNat = 0 := Int.toNat_of_nonpos hfl.le
    rw [h0, Nat.sqrt_zero]
    exact_mod_cast hm

/-- Range of one shaped component: if the remapped value lies strictly
between `-128²` and `129²` then the emitted value lies in [-127, 128]. -/
theorem signum_sqrt_as_i32_range {q : ℚ} (h1 : -16384 < q) (h2 : q < 16641) :
    -127 ≤ signum_sqrt_as_i32 q ∧ signum_sqrt_as_i32 q ≤ 128 := by
  unfold signum_sqrt_as_i32 signum_sqrt
  by_cases hq : q < 0
  · rw [if_pos hq]
    have hlt : sqrt_trunc (-q) < ((128 : ℕ) : ℤ) :=
      sqrt_trunc_lt (by norm_num) (by push_cast; linarith)
    have hge : 0 ≤ sqrt_trunc (-q) := sqrt_trunc_nonneg _
    have hb := i32sat_of_bounds (-sqrt_trunc (-q)) (by omega) (by omega)
    rw [hb]
    omega
  · rw [if_neg hq]
    have hlt : sqrt_trunc q < ((129 : ℕ) : ℤ) :=
      sqrt_trunc_lt (by norm_num) (by push_cast; linarith)
    have hge : 0 ≤ sqrt_trunc q := sqrt_trunc_nonneg _
    have hb := i32sat_of_bounds (sqrt_trunc q) (by omega) (by omega)
    rw [hb]
    omega

/-- At the source's fixed sensitivity (250), the linear remapping step is
the affine map `d ↦ 6375/2 · d + 1/2`. -/
theorem map_range_at_default (d : ℚ) :
    map_range d (-(10 / MOUSE_SENSITIVITY)) (10 / MOUSE_SENSITIVITY) (-127) 128 =
      6375 / 2 * d + 1 / 2 := by
  unfold map_range MOUSE_SENSITIVITY
  norm_num
  ring

/-- `shaped_x` at the fixed sensitivity, in affine form. -/
theorem shaped_x_linear (d : ℚ) :
    shaped_x MOUSE_SENSITIVITY d = signum_sqrt_as_i32 (6375 / 2 * d + 1 / 2) := by
  rw [shaped_x, map_range_at_default]

/-- `shaped_y` at the fixed sensitivity, in affine form. -/
theorem shaped_y_linear (d : ℚ) :
    shaped_y MOUSE_SENSITIVITY d = signum_sqrt_as_i32 (19125 / 4 * d + 3 / 4) := by
  rw [shaped_y, map_range_at_default]
  congr 1
  ring

/-- C1 (counterexample): at delta (6, 0) — six pixels of rightward mouse
motion — the motion shaper emits 138 on axis RX, outside [-127, 128]: the
code truncates but never clamps to the declared axis range. -/
theorem c1_no_clamp_counterexample :
    do_mouse_move (6, 0) =
      [.write (.absolute .RX) 138, .sync, .write (.absolute .RY) 0, .sync] ∧
    ¬(shaped_x MOUSE_SENSITIVITY 6 ≤ 128) := by
  have hx : shaped_x MOUSE_SENSITIVITY 6 = 138 := by
    rw [shaped_x_linear]
    exact signum_sqrt_as_i32_eval _ 19125 138 (by norm_num)
      (by rw [Int.floor_eq_iff]; norm_num) (by norm_num) (by norm_num)
  have hy : shaped_y MOUSE_SENSITIVITY 0 = 0 := by
    rw [shaped_y_linear]
    exact signum_sqrt_as_i32_eval _ 0 0 (by norm_num)
      (by rw [Int.floor_eq_iff]; norm_num) (by norm_num) (by norm_num)
  refine ⟨?_, ?_⟩
  · unfold do_mouse_move do_mouse_move_with send
    rw [hx, hy]
    rfl
  · rw [hx]
    norm_num

/-- C1 (amended): the motion shaper does not clamp its output to
[-127, 128]; only for deltas within the calibrated range (|dx| ≤ 5,
|dy| ≤ 3 at the fixed sensitivity 250) do both emitted right-stick values
lie within [-127, 128].  (Outside it they can exceed 128, see
`c1_no_clamp_counterexample`.) -/
theorem c1_calibrated_range_bound (dx dy : ℚ) (hx : |dx| ≤ 5) (hy : |dy| ≤ 3) :
    (-127 ≤ shaped_x MOUSE_SENSITIVITY dx ∧ shaped_x MOUSE_SENSITIVITY dx ≤ 128) ∧
    (-127 ≤ shaped_y MOUSE_SENSITIVITY dy ∧ shaped_y MOUSE_SENSITIVITY dy ≤ 128) := by
  obtain ⟨hx1, hx2⟩ := abs_le.mp hx
  obtain ⟨hy1, hy2⟩ := abs_le.mp hy
  rw [shaped_x_linear, shaped_y_linear]
  exact ⟨signum_sqrt_as_i32_range (by linarith) (by linarith),
    signum_sqrt_as_i32_range (by linarith) (by linarith)⟩

/-- Witness for C1 (amended): at the concrete delta (5, 3) the hypotheses
hold and both shaped values are in range. -/
theorem c1_calibrated_range_bound_witness :
    |(5 : ℚ)| ≤ 5 ∧ |(3 : ℚ)| ≤ 3 ∧
    ((-127 ≤ shaped_x MOUSE_SENSITIVITY 5 ∧ shaped_x MOUSE_SENSITIVITY 5 ≤ 128) ∧
     (-127 ≤ shaped_y MOUSE_SENSITIVITY 3 ∧ shaped_y MOUSE_SENSITIVITY 3 ≤ 128)) :=
  ⟨by norm_num, by norm_num,
    c1_calibrated_range_bound 5 3 (by norm_num) (by norm_num)⟩

/-- C4: for the zero delta and any nonzero sensitivity `s`, the shaper
emits exactly 0 on both right-stick axes (the remapped value is 1/2,
resp. 3/4, whose truncated square root is 0). -/
theorem c4_zero_delta (s : ℚ) (hs : s ≠ 0) :
    shaped_x s 0 = 0 ∧ shaped_y s 0 = 0 ∧
    do_mouse_move_with s (0, 0) =
      [.write (.absolute .RX) 0, .sync, .write (.absolute .RY) 0, .sync] := by
  have hmr : map_range 0 (-(10 / s)) (10 / s) (-127) 128 = 1 / 2 := by
    unfold map_range
    field_simp
    ring
  have hx : shaped_x s 0 = 0 := by
    rw [shaped_x, hmr]
    exact signum_sqrt_as_i32_eval _ 0 0 (by norm_num)
      (by rw [Int.floor_eq_iff]; norm_num) (by norm_num) (by norm_num)
  have hy : shaped_y s 0 = 0 := by
    rw [shaped_y, hmr]
    have h34 : (1 / 2 : ℚ) * (3 / 2) = 3 / 4 := by norm_num
    rw [h34]
    exact signum_sqrt_as_i32_eval _ 0 0 (by norm_num)
      (by rw [Int.floor_eq_iff]; norm_num) (by norm_num) (by norm_num)
  refine ⟨hx, hy, ?_⟩
  unfold do_mouse_move_with send
  rw [hx, hy]
  rfl

/-- Witness for C4 at the source's sensitivity 250. -/
theorem c4_zero_delta_witness :
    (250 : ℚ) ≠ 0 ∧
    (shaped_x 250 0 = 0 ∧ shaped_y 250 0 = 0 ∧
      do_mouse_move_with 250 (0, 0) =
        [.write (.absolute .RX) 0, .sync, .write (.absolute .RY) 0, .sync]) :=
  ⟨by norm_num, c4_zero_delta 250 (by norm_num)⟩

/-- Monotonicity of one shaped component along an affine remap
`d ↦ a·d + c` with `a > 0` and `0 ≤ c < 1` (the source's offsets are 1/2
and 3/4): with the sign of `d` fixed, growing |d| never shrinks the
magnitude of the emitted value. -/
theorem shaped_mono_core (a c d₁ d₂ : ℚ) (ha : 0 < a) (hc0 : 0 ≤ c) (hc1 : c < 1)
    (h : (0 ≤ d₁ ∧ d₁ ≤ d₂) ∨ (d₂ ≤ d₁ ∧ d₁ ≤ 0)) :
    (signum_sqrt_as_i32 (a * d₁ + c)).natAbs ≤
      (signum_sqrt_as_i32 (a * d₂ + c)).natAbs := by
  rcases h with ⟨h1, h2⟩ | ⟨h1, h2⟩
  · have h0 : 0 ≤ a * d₁ := mul_nonneg ha.le h1
    have hm : a * d₁ ≤ a * d₂ := mul_le_mul_of_nonneg_left h2 ha.le
    have hv1 : 0 ≤ a * d₁ + c := by linarith
    have hv2 : 0 ≤ a * d₂ + c := by linarith
    unfold signum_sqrt_as_i32 signum_sqrt
    rw [if_neg (not_lt.mpr hv1), if_neg (not_lt.mpr hv2)]
    have hst := sqrt_trunc_mono (show a * d₁ + c ≤ a * d₂ + c by linarith)
    have hn1 := sqrt_trunc_nonneg (a * d₁ + c)
    have hmono := i32sat_mono hst
    have hpos := i32sat_nonneg hn1
    omega
  · by_cases hneg : a * d₁ + c < 0
    · have hd : a * d₂ ≤ a * d₁ := mul_le_mul_of_nonneg_left h1 ha.le
      unfold signum_sqrt_as_i32 signum_sqrt
      rw [if_pos hneg, if_pos (show a * d₂ + c < 0 by linarith)]
      have hst : sqrt_trunc (-(a * d₁ + c)) ≤ sqrt_trunc (-(a * d₂ + c)) :=
        sqrt_trunc_mono (by linarith)
      have hn := sqrt_trunc_nonneg (-(a * d₁ + c))
      have hmono := i32sat_mono (neg_le_neg hst)
      have hnp : i32sat (-sqrt_trunc (-(a * d₁ + c))) ≤ 0 := i32sat_nonpos (by omega)
      omega
    · push_neg at hneg
      have h3 : a * d₁ ≤ 0 := by nlinarith
      have hlt1 : a * d₁ + c < 1 := by linarith
      unfold signum_sqrt_as_i32 signum_sqrt
      rw [if_neg (not_lt.mpr hneg)]
      have hfl : ⌊a * d₁ + c⌋ = 0 :=
        Int.floor_eq_zero_iff.mpr (Set.mem_Ico.mpr ⟨hneg, hlt1⟩)
      have e0 : sqrt_trunc (a * d₁ + c) = 0 := by
        unfold sqrt_trunc
        rw [hfl]
        simp
      rw [e0]
      have hz : i32sat 0 = 0 := i32sat_of_bounds 0 (by norm_num) (by norm_num)
      rw [hz]
      simp

/-- C5: at the fixed sensitivity, for deltas of a fixed sign, a larger
|delta| never yields a smaller |shaped value| — on both the RX and the RY
component (saturation included). -/
theorem c5_monotone (d₁ d₂ : ℚ)
    (hsign : (0 ≤ d₁ ∧ 0 ≤ d₂) ∨ (d₁ ≤ 0 ∧ d₂ ≤ 0)) (habs : |d₁| ≤ |d₂|) :
    (shaped_x MOUSE_SENSITIVITY d₁).natAbs ≤ (shaped_x MOUSE_SENSITIVITY d₂).natAbs ∧
    (shaped_y MOUSE_SENSITIVITY d₁).natAbs ≤ (shaped_y MOUSE_SENSITIVITY d₂).natAbs := by
  have h : (0 ≤ d₁ ∧ d₁ ≤ d₂) ∨ (d₂ ≤ d₁ ∧ d₁ ≤ 0) := by
    rcases hsign with ⟨h1, h2⟩ | ⟨h1, h2⟩
    · left
      refine ⟨h1, ?_⟩
      rwa [abs_of_nonneg h1, abs_of_nonneg h2] at habs
    · right
      refine ⟨?_, h1⟩
      rw [abs_of_nonpos h1, abs_of_nonpos h2] at habs
      linarith
  rw [shaped_x_linear, shaped_x_linear, shaped_y_linear, shaped_y_linear]
  exact ⟨shaped_mono_core _ _ _ _ (by norm_num) (by norm_num) (by norm_num) h,
    shaped_mono_core _ _ _ _ (by norm_num) (by norm_num) (by norm_num) h⟩

/-- Witness for C5 at the concrete pair of deltas 0 and 1. -/
theorem c5_monotone_witness :
    ((0 ≤ (0 : ℚ) ∧ 0 ≤ (1 : ℚ)) ∨ ((0 : ℚ) ≤ 0 ∧ (1 : ℚ) ≤ 0)) ∧
    |(0 : ℚ)| ≤ |(1 : ℚ)| ∧
    ((shaped_x MOUSE_SENSITIVITY 0).natAbs ≤ (shaped_x MOUSE_SENSITIVITY 1).natAbs ∧
     (shaped_y MOUSE_SENSITIVITY 0).natAbs ≤ (shaped_y MOUSE_SENSITIVITY 1).natAbs) :=
  ⟨Or.inl ⟨by norm_num, by norm_num⟩, by norm_num,
    c5_monotone 0 1 (Or.inl ⟨by norm_num, by norm_num⟩) (by norm_num)⟩

/-- C6: for each stick axis driven by two keys (W/S for Y, A/D for X),
pressing either key writes that axis at its extreme (-127 or 128) and
releasing it writes 0 to the axis.  `do_key` takes only the key and its
pressed state — it consults no record of other keys — so a release zeroes
the axis regardless of whether the other key bound to the same axis is
still held down. -/
theorem c6_axis_keys :
    do_key .KeyW true = [.write (.absolute .Y) (-127), .sync] ∧
    do_key .KeyW false = [.write (.absolute .Y) 0, .sync] ∧
    do_key .KeyS true = [.write (.absolute .Y) 128, .sync] ∧
    do_key .KeyS false = [.write (.absolute .Y) 0, .sync] ∧
    do_key .KeyA true = [.write (.absolute .X) (-127), .sync] ∧
    do_key .KeyA false = [.write (.absolute .X) 0, .sync] ∧
    do_key .KeyD true = [.write (.absolute .X) 128, .sync] ∧
    do_key .KeyD false = [.write (.absolute .X) 0, .sync] := by
  decide

/-- C7 (evaluation at the failing construction): the builder chain of
`AppState::new` declares the four absolute axes `Y`, `X`, `RX`, `RY`
(most recent first) each with range [-127, 128], flat 0 and fuzz 0, names
the device after the Xbox 360 pad and sets product id 0x028e — but the
final vendor id is 0x110, not the claimed 0x045e: the second call
`.vendor(0x110)` (in place of the evident `.version(0x110)`) overwrites
the earlier `.vendor(0x045e)`. -/
theorem c7_device_identity_eval :
    device_def.devName = "Microsoft X-Box 360 pad" ∧
    device_def.devProduct = 0x028e ∧
    device_def.devVendor = 0x110 ∧
    device_def.devVendor ≠ 0x045e ∧
    device_def.controllerAll = true ∧
    device_def.absAxes =
      [(.RY, { min := -127, max := 128, flat := 0, fuzz := 0 }),
       (.RX, { min := -127, max := 128, flat := 0, fuzz := 0 }),
       (.X, { min := -127, max := 128, flat := 0, fuzz := 0 }),
       (.Y, { min := -127, max := 128, flat := 0, fuzz := 0 })] := by
  refine ⟨rfl, rfl, rfl, by decide, rfl, rfl⟩

/-- C2 (counterexample): `hide_mouse` with `hide = true` does not check
whether a helper is already tracked.  Starting from no tracked helper, two
consecutive `hide_mouse(true)` calls each emit a spawn: the second spawn
happens while helper 0 is still tracked, the trace contains two spawn
actions, and afterwards both helper processes are alive. -/
theorem c2_double_spawn_counterexample :
    (hide_mouse { xbanish_proc := none } true (some 0)).2 = [.spawn (some 0)] ∧
    (hide_mouse { xbanish_proc := none } true (some 0)).1 = { xbanish_proc := some 0 } ∧
    (hide_mouse { xbanish_proc := some 0 } true (some 1)).2 = [.spawn (some 1)] ∧
    liveAfter ((hide_mouse { xbanish_proc := none } true (some 0)).2 ++
      (hide_mouse { xbanish_proc := some 0 } true (some 1)).2) = [1, 0] := by
  decide

/-- C9: while the session is active (the state is initialized), a key
event carrying `Delete` triggers the exit path for both the pressed and
the released edge — `hide_mouse(false)` (killing a tracked helper) and
`event_loop.exit()` — because the `Delete` arm never consults
`event.state`; by contrast the `Backslash` toggle arm acts only on the
pressed edge and is a no-op on release. -/
theorem c9_delete_exits
    (app_rest : ControlFlow) (ex : Bool) (pid : ℕ) (st : AppState)
    (now : ℕ) (pressed spawn_ok : Bool) :
    (device_event
        { app := { state := some st }, control_flow := app_rest,
          exited := ex, next_pid := pid }
        now (.key (some .Delete) pressed) spawn_ok).1.exited = true ∧
    (device_event
        { app := { state := some st }, control_flow := app_rest,
          exited := ex, next_pid := pid }
        now (.key (some .Delete) pressed) spawn_ok).2 =
      (hide_mouse st false none).2 ∧
    (device_event
        { app := { state := some st }, control_flow := app_rest,
          exited := ex, next_pid := pid }
        now (.key (some .Backslash) false) spawn_ok) =
      ({ app := { state := some st }, control_flow := app_rest,
         exited := ex, next_pid := pid }, []) := by
  refine ⟨rfl, rfl, rfl⟩

/-- C10: before `resumed` has initialized the session state
(`app.state = none`), every device event — key, mouse button, mouse
motion or other — and every timer-expiry notification is discarded: the
loop state is unchanged and no action (no device write, no
synchronization, no helper spawn or kill) is emitted. -/
theorem c10_before_resume_noop
    (cf : ControlFlow) (ex : Bool) (pid : ℕ) (now : ℕ)
    (ev : DeviceEvent) (cause : StartCause) (spawn_ok : Bool) :
    device_event
        { app := { state := none }, control_flow := cf, exited := ex, next_pid := pid }
        now ev spawn_ok =
      ({ app := { state := none }, control_flow := cf, exited := ex, next_pid := pid }, []) ∧
    new_events
        { app := { state := none }, control_flow := cf, exited := ex, next_pid := pid }
        cause =
      ({ app := { state := none }, control_flow := cf, exited := ex, next_pid := pid }, []) := by
  refine ⟨rfl, rfl⟩

end MouseCon
